import Mathlib

/-
Verification of the Interaction Graph & Adaptive Feedback Loop of the
Home Loan Assistant repository.

The repository's source tree contains the React frontend
(`frontend/frontend/src/App.tsx`, `components/FeedbackButtons.tsx`,
`components/ChatInput.tsx` (packed in `Docs.tsx`), `components/VisualizationPanel.tsx`)
but not the Flask backend that implements the core
(`record_interaction`, `record_feedback`, `train`, `suggest`, `export`).
Definitions for the missing backend are therefore modelled from the spec
(each such definition says so in its doc comment); definitions for the
client are translated from the frontend source files.

Rationals stand in for the floating-point rewards: every constant the spec
uses (-1.0, -0.1, 0.0, 0.1, 1.0) and every clamp bound is exactly
representable, so the exactness statements of the spec are faithfully
expressible.
-/

namespace LoanRL

/-- Modelled from the spec (§3 GraphNode): missing backend. Node kinds of the
interaction graph; a `tool` kind is included because §4.2 has
`record_interaction` idempotently create tool nodes. -/
inductive NodeKind where
  | interaction
  | feedback
  | topic
  | tool
deriving DecidableEq, Repr

/-- Modelled from the spec (§3 GraphEdge): missing backend. Edge kinds. -/
inductive EdgeKind where
  | produced
  | rated
  | discusses
deriving DecidableEq, Repr

/-- Modelled from the spec (§3 Interaction): missing backend. Payload of an
interaction node. -/
structure Interaction where
  timestamp : Nat
  user_input : String
  agent_response : String
  action : String
  topics : List String
deriving DecidableEq, Repr

/-- Modelled from the spec (§3 Feedback): missing backend. Payload of a
feedback node. -/
structure Feedback where
  interaction_id : Nat
  rating : Int
  tags : List String
  reward : Rat
  timestamp : Nat
deriving DecidableEq, Repr

/-- Modelled from the spec (§3): missing backend. Kind-specific payload of a
graph node. -/
inductive Payload where
  | interaction (i : Interaction)
  | feedback (f : Feedback)
  | tool (name : String)
deriving DecidableEq, Repr

/-- Modelled from the spec (§3 GraphNode): missing backend. -/
structure GraphNode where
  id : Nat
  payload : Payload
deriving DecidableEq, Repr

/-- Modelled from the spec (§3 GraphNode): the kind of a node, determined by
its payload. -/
def GraphNode.kind (n : GraphNode) : NodeKind :=
  match n.payload with
  | .interaction _ => .interaction
  | .feedback _ => .feedback
  | .tool _ => .tool

/-- Modelled from the spec (§3 GraphEdge): missing backend. -/
structure GraphEdge where
  source : Nat
  target : Nat
  kind : EdgeKind
  weight : Rat
deriving DecidableEq, Repr

/-- Modelled from the spec (§3 Policy): missing backend. A versioned,
immutable policy artifact; the state-to-distribution function is represented
by a finite weight table over the fixed action set. -/
structure Policy where
  version_timestamp : Nat
  table : List (String × Rat)
deriving DecidableEq, Repr

/-- Modelled from the spec (§3, §9): missing backend. The whole mutable state
of the core: an arena of nodes indexed by id, an edge list, a fresh-id
counter and the current policy (`none` = untrained). -/
structure Graph where
  nextId : Nat
  nodes : List GraphNode
  edges : List GraphEdge
  policy : Option Policy
deriving DecidableEq, Repr

/-- Modelled from the spec: the empty initial graph, untrained. -/
def emptyGraph : Graph := ⟨0, [], [], none⟩

/-- From src/frontend/frontend/src/components/ChatInput.tsx `TOOL_OPTIONS`
(value, label, template): the fixed tool identifiers of the system. -/
def TOOL_OPTIONS : List (String × String × String) :=
  [("", "General Chat", ""),
   ("mortgage_calculator", "Mortgage Calculator", "principal=300000, rate=6.5, term=30"),
   ("loan_eligibility", "Eligibility Checker", "income=75000, credit_score=720, dti=35"),
   ("interest_rate_info", "Interest Rate Info", "current rates")]

/-- Modelled from the spec (§4.2 "if action resolves to a known tool"),
instantiated with the tool identifiers of `TOOL_OPTIONS`. -/
def knownTools : List String :=
  ["mortgage_calculator", "loan_eligibility", "interest_rate_info"]

/-- Modelled from the spec (§4.1 Topic Tagger): missing backend. Bounded
vocabulary {rates, eligibility, payments, general}; a pure deterministic map
from the action identifier to topic labels, with the unmatched case yielding
["general"] so every interaction is classifiable. Text analysis beyond the
action identifier is abstracted away. -/
def tagTopics (user_input action : String) : List String :=
  if action = "mortgage_calculator" then ["payments"]
  else if action = "loan_eligibility" then ["eligibility"]
  else if action = "interest_rate_info" then ["rates"]
  else
    let _ := user_input
    ["general"]

/-- Modelled from the spec (§4.3): missing backend. `base_reward` linearly
maps rating 1 → -1.0 … 5 → +1.0, i.e. (rating - 3) / 2. -/
def base_reward (r : Int) : Rat := ((r : Rat) - 3) / 2

/-- Character-wise ASCII lowercasing of a string (explicit form of
`String.toLower`, kept reducible for the kernel). -/
def lowerStr (s : String) : String := String.mk (s.data.map Char.toLower)

/-- Modelled from the spec (§4.3 and §8 scenarios): missing backend. Additive
delta of one tag; the §8 scenarios apply the deltas of "too verbose" and
"helpful" to the client tags "Too verbose" and "Helpful", so matching is on
the lowercased tag. Unrecognized tags contribute 0. -/
def tagDelta (t : String) : Rat :=
  if lowerStr t = "too verbose" then -(1/10)
  else if lowerStr t = "helpful" then 1/10
  else 0

/-- Modelled from the spec (§4.3): missing backend. Sum of the per-tag
deltas: each individually recognized tag contributes its own delta. -/
def tag_adjustment (ts : List String) : Rat := (ts.map tagDelta).sum

/-- Modelled from the spec (§4.3): missing backend. Clamp to [-1, 1]. -/
def clampReward (x : Rat) : Rat := max (-1) (min 1 x)

/-- Modelled from the spec (§4.3): missing backend. The reward of a feedback
submission: clamp(base_reward(rating) + tag_adjustment(tags)). -/
def computeReward (r : Int) (ts : List String) : Rat :=
  clampReward (base_reward r + tag_adjustment ts)

/-- Modelled from the spec (§4.2): missing backend. Finds an existing tool
node for the given tool identifier, if any (used for the idempotent tool-node
creation of `record_interaction`). -/
def findToolNode (g : Graph) (tool : String) : Option Nat :=
  (g.nodes.find? fun n => n.payload = .tool tool).map (·.id)

/-- Modelled from the spec (§4.2 Interaction Recorder): missing backend.
Allocates a fresh-id interaction node (topics from the Topic Tagger), inserts
it; if the action is a known tool, idempotently ensures a tool node and adds a
"produced" edge (tool → interaction, weight 1). Returns the new interaction id
and the updated graph. -/
def record_interaction (g : Graph) (now : Nat)
    (user_input agent_response action : String) : Nat × Graph :=
  let iid := g.nextId
  let inode : GraphNode :=
    ⟨iid, .interaction ⟨now, user_input, agent_response, action,
                        tagTopics user_input action⟩⟩
  let g1 : Graph := { g with nextId := g.nextId + 1, nodes := g.nodes ++ [inode] }
  if action ∈ knownTools then
    match findToolNode g1 action with
    | some tid => (iid, { g1 with edges := g1.edges ++ [⟨tid, iid, .produced, 1⟩] })
    | none =>
        (iid, { g1 with
                  nextId := g1.nextId + 1,
                  nodes := g1.nodes ++ [⟨g1.nextId, .tool action⟩],
                  edges := g1.edges ++ [⟨g1.nextId, iid, .produced, 1⟩] })
  else (iid, g1)

/-- Modelled from the spec (§7): missing backend. The recoverable error cases
of `record_feedback`. -/
inductive FeedbackError where
  | invalidRating
  | unknownInteraction
deriving DecidableEq, Repr

/-- Modelled from the spec: whether the graph has an interaction node with the
given id. -/
def hasInteraction (g : Graph) (iid : Nat) : Bool :=
  g.nodes.any fun n => n.id = iid && n.kind = .interaction

/-- Modelled from the spec (§4.3 Feedback Aggregator): missing backend.
Rejects ratings outside 1–5 with `InvalidRating`; fails with
`UnknownInteraction` on a nonexistent interaction id; otherwise creates a
feedback node carrying the computed reward, adds a "rated" edge
(interaction → feedback, weight = reward), and acknowledges with the new
feedback node's id. On failure the graph is returned unchanged. -/
def record_feedback (g : Graph) (now : Nat) (iid : Nat) (rating : Int)
    (tags : List String) : Except FeedbackError Nat × Graph :=
  if rating < 1 ∨ 5 < rating then (.error .invalidRating, g)
  else if ¬ hasInteraction g iid then (.error .unknownInteraction, g)
  else
    let reward := computeReward rating tags
    let fid := g.nextId
    (.ok fid,
     { g with
         nextId := g.nextId + 1,
         nodes := g.nodes ++ [⟨fid, .feedback ⟨iid, rating, tags, reward, now⟩⟩],
         edges := g.edges ++ [⟨iid, fid, .rated, reward⟩] })

/-- Modelled from the spec: the feedback payloads stored in the graph, in
insertion order. -/
def feedbacks (g : Graph) : List Feedback :=
  g.nodes.filterMap fun n =>
    match n.payload with
    | .feedback f => some f
    | _ => none

/-- Modelled from the spec: the interaction payloads stored in the graph
together with their node ids, in insertion order. -/
def interactionsOf (g : Graph) : List (Nat × Interaction) :=
  g.nodes.filterMap fun n =>
    match n.payload with
    | .interaction i => some (n.id, i)
    | _ => none

/-- Average of a list of integer ratings as a rational (0 on the empty
list; consumers treat the empty series as "no data"). -/
def listAvg (l : List Int) : Rat :=
  if l.length = 0 then 0 else (l.map (fun r => (r : Rat))).sum / l.length

/-- Modelled from the spec (§3 PerformanceSnapshot, §4.4 Metrics Engine):
missing backend. The derived performance series, shaped as the frontend's
`VisualizationPanel` performance interface. -/
structure Perf where
  timestamps : List Nat
  ratings : List Int
  average_ratings : List Rat
  accuracy : List Rat
  rating_distribution : List (Int × Nat)
  recent_average_rating : List Rat
deriving DecidableEq, Repr

/-- Modelled from the spec (§4.4): missing backend. Recomputes the full
performance snapshot from the feedback history: running averages, trailing
window (size 10) averages, accuracy = percentage of ratings ≥ 4, and the
rating distribution over 1–5. -/
def perf (g : Graph) : Perf :=
  let fs := feedbacks g
  let rs := fs.map (·.rating)
  { timestamps := fs.map (·.timestamp)
    ratings := rs
    average_ratings := (List.range rs.length).map fun i => listAvg (rs.take (i + 1))
    accuracy := (List.range rs.length).map fun i =>
      (((rs.take (i + 1)).filter (fun r => 4 ≤ r)).length : Rat) / (i + 1) * 100
    rating_distribution := [1, 2, 3, 4, 5].map fun v => (v, rs.count v)
    recent_average_rating := (List.range rs.length).map fun i =>
      listAvg ((rs.take (i + 1)).drop (i + 1 - 10)) }

/-- Modelled from the spec (§3 TopicStats): missing backend. Per-topic series,
shaped as the frontend's `VisualizationPanel` topics interface. -/
structure TopicStats where
  ratings : List Int
  timestamps : List Nat
  average_ratings : List Rat
deriving DecidableEq, Repr

/-- Modelled from the spec: the topics of the interaction a feedback refers
to (empty if the id is dangling). -/
def interactionTopics (g : Graph) (iid : Nat) : List String :=
  match (interactionsOf g).find? (fun p => p.1 = iid) with
  | some (_, i) => i.topics
  | none => []

/-- Modelled from the spec (§3 TopicStats): missing backend. The projection of
the feedback series onto interactions tagged with the given topic. -/
def topicStatsFor (g : Graph) (t : String) : TopicStats :=
  let fs := (feedbacks g).filter fun f => t ∈ interactionTopics g f.interaction_id
  let rs := fs.map (·.rating)
  { ratings := rs
    timestamps := fs.map (·.timestamp)
    average_ratings := (List.range rs.length).map fun i => listAvg (rs.take (i + 1)) }

/-- Modelled from the spec (§4.1): missing backend. The bounded topic
vocabulary. -/
def topicVocab : List String := ["rates", "eligibility", "payments", "general"]

/-- Modelled from the spec (§4.7): missing backend. The per-topic stats
mapping of the export snapshot, over the bounded topic vocabulary. -/
def topicStatsAll (g : Graph) : List (String × TopicStats) :=
  topicVocab.map fun t => (t, topicStatsFor g t)

/-- Modelled from the spec (§4.7 Graph Exporter): missing backend. The
immutable export snapshot: full node/edge lists, performance snapshot,
per-topic stats, and the current policy's version timestamp (absent if
untrained). -/
structure Snapshot where
  nodes : List GraphNode
  edges : List GraphEdge
  performance : Perf
  topics : List (String × TopicStats)
  policy_version : Option Nat
deriving DecidableEq, Repr

/-- Byte-level view of a snapshot: its canonical rendering as a string. Two
snapshots are byte-identical exactly when these strings are equal. -/
def Snapshot.serialize (s : Snapshot) : String := toString (repr s)

/-- Modelled from the spec (§4.7 Graph Exporter): missing backend. `export()`
in state-passing form: returns the snapshot together with the (unchanged)
graph state. Named `exportSnapshot` because `export` is reserved in Lean. -/
def exportSnapshot (g : Graph) : Snapshot × Graph :=
  (⟨g.nodes, g.edges, perf g, topicStatsAll g, g.policy.map (·.version_timestamp)⟩, g)

/-- Modelled from the spec (§4.5, Glossary): missing backend. A training
episode: a fixed-width state encoding, the recorded action, and the reward of
the most recent feedback of the interaction. -/
structure Episode where
  state : List Nat
  action : String
  reward : Rat
deriving DecidableEq, Repr

/-- Modelled from the spec (§4.5 step 1): missing backend. Fixed-width
indicator encoding of an interaction's topic set over the bounded
vocabulary. -/
def stateEncode (topics : List String) : List Nat :=
  topicVocab.map fun t => if t ∈ topics then 1 else 0

/-- Modelled from the spec (§4.5 step 1, §4.3): missing backend. The most
recent feedback for an interaction (feedback nodes are appended in arrival
order, so the last matching payload is the most recent). -/
def lastFeedbackFor (g : Graph) (iid : Nat) : Option Feedback :=
  ((feedbacks g).filter fun f => f.interaction_id = iid).getLast?

/-- Modelled from the spec (§4.5 step 1): missing backend. One episode per
interaction that has at least one feedback node. -/
def episodes (g : Graph) : List Episode :=
  (interactionsOf g).filterMap fun p =>
    match lastFeedbackFor g p.1 with
    | some f => some ⟨stateEncode p.2.topics, p.2.action, f.reward⟩
    | none => none

/-- Modelled from the spec (§2, §4.6): missing backend. The fixed, enumerable
action set the policy selects among: the tool identifiers plus "general". -/
def actionSet : List String := knownTools ++ ["general"]

/-- Modelled from the spec (§4.5 step 4): missing backend. One clipped
weight update for one action: the aggregate episode reward of that action,
clipped to ±1/5 per iteration (stand-in for the PPO clipped surrogate
objective, which bounds the per-iteration policy update). -/
def clipQ (lo hi x : Rat) : Rat := max lo (min hi x)

/-- Modelled from the spec (§4.5 step 4): missing backend. One optimization
pass over the episode set: every action's weight moves by its clipped
aggregate reward. -/
def optimizePass (eps : List Episode) (w : List (String × Rat)) : List (String × Rat) :=
  w.map fun p =>
    (p.1, p.2 + clipQ (-(1/5)) (1/5) (((eps.filter fun e => e.action = p.1).map (·.reward)).sum))

/-- Modelled from the spec (§4.5 step 4): missing backend. A bounded number
(10) of optimization iterations starting from uniform weights. -/
def optimize (eps : List Episode) : List (String × Rat) :=
  Nat.iterate (optimizePass eps) 10 (actionSet.map fun a => (a, 1))

/-- Modelled from the spec (§4.5, §7): missing backend. The outcome of a
`train()` call. -/
inductive TrainOutcome where
  | success (version : Nat) (before_metrics after_metrics : Perf)
  | insufficientData
  | trainingInProgress
deriving DecidableEq, Repr

/-- Whether a train outcome is a success. -/
def TrainOutcome.isSuccess : TrainOutcome → Bool
  | .success _ _ _ => true
  | _ => false

/-- Modelled from the spec (§4.5 Policy Trainer): missing backend. `train()`
in state-passing form: refuses a concurrent run with `TrainingInProgress`,
refuses fewer than `minEp` episodes with `InsufficientData`, and otherwise
builds a new policy version tagged `now` and atomically swaps it in; the
before/after metric snapshots are both the current `Perf` (training does not
change historical ratings). Every failure returns the graph unchanged. -/
def train (g : Graph) (minEp : Nat) (inFlight : Bool) (now : Nat) :
    TrainOutcome × Graph :=
  if inFlight then (.trainingInProgress, g)
  else if (episodes g).length < minEp then (.insufficientData, g)
  else
    (.success now (perf g) (perf g),
     { g with policy := some ⟨now, optimize (episodes g)⟩ })

/-- Modelled from the spec: the current policy's version timestamp, if any. -/
def policyVersion (g : Graph) : Option Nat := g.policy.map (·.version_timestamp)

/-- Weight looked up in a policy table (0 when absent). -/
def tableWeight (w : List (String × Rat)) (a : String) : Rat :=
  match w.find? (fun p => p.1 = a) with
  | some p => p.2
  | none => 0

/-- Modelled from the spec (§4.6): missing backend. The action of the fixed
action set with the greatest policy weight ("general" as a degenerate
default). -/
def bestAction (p : Policy) : String :=
  (actionSet.foldl
    (fun acc a => if tableWeight p.table acc < tableWeight p.table a then a else acc)
    "general")

/-- Modelled from the spec (§4.6): missing backend. The probability
distribution a policy induces over the fixed action set: weights are shifted
to be positive and normalized. -/
def distOf (p : Policy) : List (String × Rat) :=
  let lo := (p.table.map (·.2)).foldl min 0
  let shifted := actionSet.map fun a => (a, tableWeight p.table a - lo + 1)
  let total := (shifted.map (·.2)).sum
  shifted.map fun q => (q.1, q.2 / total)

/-- Modelled from the spec (§4.6 Policy Advisor): missing backend.
`suggest(state)`: a total function; with no trained policy it returns the
deterministic fallback ("general", probability 1.0) and the "untrained"
marker `true`; otherwise the current policy's top action and distribution
with marker `false`. -/
def suggest (g : Graph) (state : List Nat) : String × List (String × Rat) × Bool :=
  match g.policy with
  | none =>
      let _ := state
      ("general", [("general", 1)], true)
  | some p => (bestAction p, distOf p, false)

/-- From src/frontend/frontend/src/components/FeedbackButtons.tsx
`FEEDBACK_TAGS`: the fixed tag vocabulary offered by the UI. -/
def FEEDBACK_TAGS : List String :=
  ["Be more concise", "Explain more", "Too verbose", "Good answer",
   "Not accurate", "Helpful", "Unhelpful"]

/-- From FeedbackButtons.tsx: the component's local state
(`selectedRating`, `selectedTags`). -/
structure FBState where
  selectedRating : Option Nat
  selectedTags : List String
deriving DecidableEq, Repr

/-- From FeedbackButtons.tsx: the initial component state
(`useState(null)`, `useState([])`). -/
def initFB : FBState := ⟨none, []⟩

/-- From FeedbackButtons.tsx `handleTagToggle`: remove the tag if present,
otherwise append it. -/
def handleTagToggle (prev : List String) (tag : String) : List String :=
  if tag ∈ prev then prev.filter (fun t => t ≠ tag) else prev ++ [tag]

/-- The click events the rendered FeedbackButtons component can produce:
one of the five fixed rating buttons (rendered from `[1,2,3,4,5].map`), one
of the seven tag buttons (rendered from `FEEDBACK_TAGS.map`), or the submit
button. -/
inductive FBClick where
  | clickRating (i : Fin 5)
  | clickTag (i : Fin 7)
  | clickSubmit
deriving DecidableEq, Repr

/-- From FeedbackButtons.tsx: the literal rating-button labels/values. -/
def ratingButtons : List Nat := [1, 2, 3, 4, 5]

/-- From FeedbackButtons.tsx / App.tsx: what `onFeedback(rating, text)`
carries — a rating and the joined tag text. -/
structure FeedbackEmission where
  rating : Nat
  text : String
deriving DecidableEq, Repr

/-- From FeedbackButtons.tsx: one step of the component. A rating click sets
`selectedRating`; a tag click toggles; submit with a selected rating calls
`onFeedback(selectedRating, selectedTags.join(", "))` and resets both pieces
of state, while submit with no rating only alerts (no emission, state
kept). -/
def fbStep (s : FBState) (a : FBClick) : FBState × Option FeedbackEmission :=
  match a with
  | .clickRating i =>
      ({ s with selectedRating := some (ratingButtons.get ⟨i.1, i.2⟩) }, none)
  | .clickTag i =>
      ({ s with selectedTags := handleTagToggle s.selectedTags (FEEDBACK_TAGS.get ⟨i.1, i.2⟩) },
       none)
  | .clickSubmit =>
      match s.selectedRating with
      | some r => (⟨none, []⟩, some ⟨r, String.intercalate ", " s.selectedTags⟩)
      | none => (s, none)

/-- Runs the FeedbackButtons component over a click sequence, collecting every
`onFeedback` emission in order. -/
def fbRun (s : FBState) : List FBClick → List FeedbackEmission
  | [] => []
  | a :: as =>
      ((fbStep s a).2.toList) ++ fbRun (fbStep s a).1 as

/-- From src/frontend/frontend/src/App.tsx: the piece of App state the
feedback/message flow depends on (`lastInteractionId`). -/
structure AppState where
  lastInteractionId : Option String
deriving DecidableEq, Repr

/-- From App.tsx: initial state (`useState<string | null>(null)`). -/
def initApp : AppState := ⟨none⟩

/-- The events driving App.tsx's message/feedback flow: a server `response`
(with its optional `interaction_id`), the user sending a chat message
(`sendMessage`), and the user submitting feedback (`sendFeedback`). -/
inductive ClientEvent where
  | serverResponse (message : String) (interaction_id : Option String)
  | userSend (message : String)
  | userFeedback (rating : Nat) (text : String)
deriving DecidableEq, Repr

/-- The socket events the client emits: `chat_message` and `feedback`. -/
inductive Emission where
  | chatMessage (message : String)
  | feedbackEvent (interaction_id : String) (rating : Nat) (text : String)
deriving DecidableEq, Repr

/-- Character-wise whitespace trimming (model of JavaScript's
`String.prototype.trim`, which the client calls as `message.trim()`). -/
def trimStr (s : String) : String :=
  String.mk (((s.data.dropWhile Char.isWhitespace).reverse.dropWhile
    Char.isWhitespace).reverse)

/-- From App.tsx: one step of the client. The `response` handler stores
`data.interaction_id` in `lastInteractionId` only when both `data.message`
and `data.interaction_id` are truthy (nonempty). `sendMessage` returns early
on a whitespace-only message and otherwise clears `lastInteractionId` and
emits `chat_message`. `sendFeedback` returns without emitting when
`lastInteractionId` is null and otherwise emits `feedback` with that id and
resets `lastInteractionId` to null. -/
def appStep (s : AppState) (e : ClientEvent) : AppState × Option Emission :=
  match e with
  | .serverResponse message oid =>
      if message ≠ "" then
        match oid with
        | some i => if i ≠ "" then (⟨some i⟩, none) else (s, none)
        | none => (s, none)
      else (s, none)
  | .userSend message =>
      if trimStr message = "" then (s, none)
      else (⟨none⟩, some (.chatMessage message))
  | .userFeedback rating text =>
      match s.lastInteractionId with
      | none => (s, none)
      | some iid => (⟨none⟩, some (.feedbackEvent iid rating text))

/-- Runs the client over an event sequence, collecting emissions in order. -/
def appRun (s : AppState) : List ClientEvent → List Emission
  | [] => []
  | e :: es => ((appStep s e).2.toList) ++ appRun (appStep s e).1 es

/-- The interaction ids the server delivers over an event sequence (a
`response` whose `message` and `interaction_id` are both truthy). -/
def receivedIds (evs : List ClientEvent) : List String :=
  evs.filterMap fun e =>
    match e with
    | .serverResponse m oid =>
        if m ≠ "" then
          match oid with
          | some i => if i ≠ "" then some i else none
          | none => none
        else none
    | _ => none

/-- The interaction ids referenced by the `feedback` events of an emission
list. -/
def feedbackIds (ems : List Emission) : List String :=
  ems.filterMap fun e =>
    match e with
    | .feedbackEvent i _ _ => some i
    | _ => none

/-- From src/frontend/frontend/src/components/ChatInput.tsx (packed in
Docs.tsx) `handleSubmit`: when not disabled, prepend the `/tool` command for
a selected tool and forward the message to `onSendMessage` only when its
trimmed form is nonempty; returns the forwarded message, if any. -/
def chatInputSubmit (disabled : Bool) (selectedTool message : String) :
    Option String :=
  if disabled then none
  else
    let msg := if selectedTool ≠ "" then "/tool " ++ selectedTool ++ " " ++ message
               else message
    if trimStr msg ≠ "" then some msg else none

/-- From src/frontend/frontend/src/components/VisualizationPanel.tsx
`formatVersionTimestamp`: a falsy (absent or zero) version timestamp renders
the untrained marker; the date rendering of a trained timestamp is abstracted
to the timestamp itself. -/
def formatVersionTimestamp (timestamp : Option Nat) : String :=
  match timestamp with
  | none => "Base Model (Not Trained Yet)"
  | some t => if t = 0 then "Base Model (Not Trained Yet)"
              else "Trained: " ++ toString t

/-- A concrete one-interaction graph used by witnesses: the result of
recording a single "general" interaction in the empty graph. Its interaction
node has id 0 and the next fresh id is 1. -/
def gEx : Graph := (record_interaction emptyGraph 3 "hi" "ok" "general").2

/-- C1: for a feedback submission with rating r in 1..5 and tag list ts,
`record_feedback` stores reward = clamp(base_reward(r) + tag_adjustment(ts))
on the new feedback node; base_reward(1) = -1.0, base_reward(3) = 0.0,
base_reward(5) = 1.0 exactly; the tag "too verbose" contributes -0.1,
"helpful" contributes +0.1, every unrecognized tag 0; the sum is clamped to
[-1.0, 1.0]; rating 5 with tags ["Helpful"] yields reward 1.0 and rating 1
with tags ["Too verbose"] yields reward -1.0. -/
theorem C1_reward_rule :
    (∀ (g : Graph) (now iid : Nat) (r : Int) (tags : List String)
        (fid : Nat) (g' : Graph),
        1 ≤ r → r ≤ 5 →
        record_feedback g now iid r tags = (.ok fid, g') →
        g'.nodes = g.nodes ++
          [⟨fid, .feedback ⟨iid, r, tags,
              clampReward (base_reward r + tag_adjustment tags), now⟩⟩]) ∧
    base_reward 1 = -1 ∧ base_reward 3 = 0 ∧ base_reward 5 = 1 ∧
    tagDelta "too verbose" = -(1/10) ∧ tagDelta "helpful" = 1/10 ∧
    (∀ t, lowerStr t ≠ "too verbose" → lowerStr t ≠ "helpful" → tagDelta t = 0) ∧
    (∀ (r : Int) (ts : List String),
      -1 ≤ computeReward r ts ∧ computeReward r ts ≤ 1) ∧
    computeReward 5 ["Helpful"] = 1 ∧ computeReward 1 ["Too verbose"] = -1 := by
  refine ⟨?_, ?_, ?_, ?_, ?_, ?_, ?_, ?_, ?_, ?_⟩
  · intro g now iid r tags fid g' _ _ h
    unfold record_feedback at h
    split at h
    · simp at h
    · split at h
      · simp at h
      · simp only [Prod.mk.injEq, Except.ok.injEq] at h
        obtain ⟨h1, h2⟩ := h
        subst h1
        subst h2
        rfl
  · norm_num [base_reward]
  · norm_num [base_reward]
  · norm_num [base_reward]
  · simp [tagDelta, (by decide : lowerStr "too verbose" = "too verbose")]
  · simp [tagDelta, (by decide : lowerStr "helpful" = "helpful"),
      (by decide : ¬ ("helpful" : String) = "too verbose")]
  · intro t h1 h2
    simp [tagDelta, h1, h2]
  · intro r ts
    refine ⟨le_max_left _ _, max_le (by norm_num) (min_le_left _ _)⟩
  · norm_num [computeReward, clampReward, base_reward, tag_adjustment, tagDelta,
      (by decide : lowerStr "Helpful" = "helpful"),
      (by decide : ¬ ("helpful" : String) = "too verbose")]
  · norm_num [computeReward, clampReward, base_reward, tag_adjustment, tagDelta,
      (by decide : lowerStr "Too verbose" = "too verbose")]

/-- C1 witness: recording rating-5 feedback with tag "Helpful" on the
concrete one-interaction graph stores the clamped reward, and a concrete
reward is inside [-1, 1]. -/
theorem C1_reward_rule_witness :
    (record_feedback gEx 7 0 5 ["Helpful"]).2.nodes = gEx.nodes ++
      [⟨1, .feedback ⟨0, 5, ["Helpful"],
          clampReward (base_reward 5 + tag_adjustment ["Helpful"]), 7⟩⟩] ∧
    (-1 ≤ computeReward 2 ["Unhelpful"] ∧ computeReward 2 ["Unhelpful"] ≤ 1) :=
  ⟨C1_reward_rule.1 gEx 7 0 5 ["Helpful"] 1 (record_feedback gEx 7 0 5 ["Helpful"]).2
      (by decide) (by decide) rfl,
   C1_reward_rule.2.2.2.2.2.2.2.1 2 ["Unhelpful"]⟩

/-- C2: `record_feedback` fails with `InvalidRating` exactly when the rating
is outside 1..5; with an in-range rating it fails with `UnknownInteraction`
exactly when the interaction id does not exist, and otherwise succeeds with
an acknowledgement; both failures are recoverable: they return normally and
leave the graph state unchanged. -/
theorem C2_feedback_errors :
    ∀ (g : Graph) (now iid : Nat) (r : Int) (tags : List String),
    ((record_feedback g now iid r tags).1 = .error .invalidRating ↔
      r < 1 ∨ 5 < r) ∧
    (1 ≤ r → r ≤ 5 → hasInteraction g iid = false →
      (record_feedback g now iid r tags).1 = .error .unknownInteraction) ∧
    (1 ≤ r → r ≤ 5 → hasInteraction g iid = true →
      ∃ fid, (record_feedback g now iid r tags).1 = .ok fid) ∧
    (∀ e, (record_feedback g now iid r tags).1 = .error e →
      (record_feedback g now iid r tags).2 = g) := by
  intro g now iid r tags
  by_cases hr : r < 1 ∨ 5 < r
  · simp only [record_feedback, if_pos hr]
    refine ⟨by simp [hr], ?_, ?_, by intros; trivial⟩
    · intro h1 h5 _
      exact absurd hr (by omega)
    · intro h1 h5 _
      exact absurd hr (by omega)
  · by_cases hi : hasInteraction g iid
    · have hcond : ¬ (¬ hasInteraction g iid = true) := by simp [hi]
      simp only [record_feedback, if_neg hr, if_neg hcond]
      refine ⟨by simp [hr], ?_, fun _ _ _ => ⟨g.nextId, rfl⟩, by intro e he; simp at he⟩
      intro _ _ hfalse
      rw [hi] at hfalse
      exact absurd hfalse (by simp)
    · simp only [record_feedback, if_neg hr, if_pos hi]
      refine ⟨by simp [hr], by intros; trivial, ?_, by intros; trivial⟩
      intro _ _ htrue
      exact absurd htrue hi

/-- C2 witness: on the concrete one-interaction graph, rating 6 is rejected
as `InvalidRating` leaving the graph unchanged, an unknown interaction id is
rejected as `UnknownInteraction`, and a valid submission is acknowledged. -/
theorem C2_feedback_errors_witness :
    (record_feedback gEx 7 0 6 []).1 = .error .invalidRating ∧
    (record_feedback gEx 7 99 3 []).1 = .error .unknownInteraction ∧
    (∃ fid, (record_feedback gEx 7 0 3 []).1 = .ok fid) ∧
    (record_feedback gEx 7 0 6 []).2 = gEx :=
  ⟨(C2_feedback_errors gEx 7 0 6 []).1.mpr (by decide),
   (C2_feedback_errors gEx 7 99 3 []).2.1 (by decide) (by decide) rfl,
   (C2_feedback_errors gEx 7 0 3 []).2.2.1 (by decide) (by decide) rfl,
   (C2_feedback_errors gEx 7 0 6 []).2.2.2 .invalidRating
     ((C2_feedback_errors gEx 7 0 6 []).1.mpr (by decide))⟩

/-- C4: `train()` with fewer than the configured minimum number of episodes
returns `InsufficientData` with the graph unchanged, and every failed
`train()` call leaves the graph — in particular the current policy and its
version — exactly as before the call. -/
theorem C4_train_failure_preserves_policy :
    ∀ (g : Graph) (minEp now : Nat),
    ((episodes g).length < minEp →
      train g minEp false now = (.insufficientData, g)) ∧
    (∀ inFlight : Bool,
      (train g minEp inFlight now).1.isSuccess = false →
      (train g minEp inFlight now).2 = g ∧
      policyVersion (train g minEp inFlight now).2 = policyVersion g) := by
  intro g minEp now
  constructor
  · intro h
    unfold train
    rw [if_neg (by simp), if_pos h]
  · intro inFlight
    unfold train
    split_ifs with h1 h2
    · exact fun _ => ⟨rfl, rfl⟩
    · exact fun _ => ⟨rfl, rfl⟩
    · intro habs
      exact absurd habs (by simp [TrainOutcome.isSuccess])

/-- C4 witness: training the empty graph with a configured minimum of one
episode fails with `InsufficientData` and leaves the graph (hence the policy
version) unchanged. -/
theorem C4_train_failure_preserves_policy_witness :
    train emptyGraph 1 false 0 = (.insufficientData, emptyGraph) ∧
    (train emptyGraph 1 false 0).2 = emptyGraph ∧
    policyVersion (train emptyGraph 1 false 0).2 = policyVersion emptyGraph :=
  ⟨(C4_train_failure_preserves_policy emptyGraph 1 0).1 (by decide),
   ((C4_train_failure_preserves_policy emptyGraph 1 0).2 false (by decide)).1,
   ((C4_train_failure_preserves_policy emptyGraph 1 0).2 false (by decide)).2⟩

/-- C5: `suggest(state)` is total — it returns a value for every graph and
every state; when no policy has been trained (policy = none, a representable
state) it returns the deterministic fallback action "general" with
probability 1.0 and the untrained marker, and the frontend renders the
untrained marker for an absent version timestamp. -/
theorem C5_suggest_never_fails :
    ∀ (g : Graph) (state : List Nat),
    (g.policy = none →
      suggest g state = ("general", [("general", 1)], true) ∧
      formatVersionTimestamp (policyVersion g) = "Base Model (Not Trained Yet)") ∧
    (∃ action dist untrained, suggest g state = (action, dist, untrained)) := by
  intro g state
  constructor
  · intro h
    constructor
    · simp [suggest, h]
    · simp [policyVersion, h, formatVersionTimestamp]
  · exact ⟨_, _, _, rfl⟩

/-- C5 witness: on the untrained empty graph, `suggest` returns the
fallback. -/
theorem C5_suggest_never_fails_witness :
    suggest emptyGraph [] = ("general", [("general", 1)], true) ∧
    formatVersionTimestamp (policyVersion emptyGraph) = "Base Model (Not Trained Yet)" :=
  (C5_suggest_never_fails emptyGraph []).1 rfl

/-- C6: `export()` is a pure read: it returns the graph state unchanged, so
two exports with no intervening mutation yield equal — hence byte-identical
(equal serializations) — snapshots, and no export changes the graph, the
performance series or the topic statistics. -/
theorem C6_export_idempotent :
    ∀ g : Graph,
    (exportSnapshot g).2 = g ∧
    (exportSnapshot ((exportSnapshot g).2)).1 = (exportSnapshot g).1 ∧
    ((exportSnapshot ((exportSnapshot g).2)).1).serialize =
      ((exportSnapshot g).1).serialize ∧
    perf ((exportSnapshot g).2) = perf g ∧
    topicStatsAll ((exportSnapshot g).2) = topicStatsAll g :=
  fun _ => ⟨rfl, rfl, rfl, rfl, rfl⟩

/-- The ids of all nodes of the graph, in insertion order. -/
def nodeIds (g : Graph) : List Nat := g.nodes.map (·.id)

/-- The interaction nodes of the graph, in insertion order. -/
def interactionNodes (g : Graph) : List GraphNode :=
  g.nodes.filter fun n => n.kind = .interaction

/-- The ids of the interaction nodes of the graph. -/
def interactionIds (g : Graph) : List Nat := (interactionNodes g).map (·.id)

/-- Invariant: every node id is strictly below the fresh-id counter. -/
def idsBound (g : Graph) : Prop := ∀ n ∈ g.nodes, n.id < g.nextId

lemma idsBound_notMem (g : Graph) (hb : idsBound g) (k : Nat)
    (hk : g.nextId ≤ k) : k ∉ nodeIds g := by
  intro hmem
  obtain ⟨m, hm, hid⟩ := List.mem_map.1 hmem
  have := hb m hm
  omega

/-- Characterization of one `record_interaction` call: the node list grows by
the fresh-id interaction node followed by at most one tool node with the next
fresh id, and the counter advances past every new id. -/
lemma record_interaction_nodes (g : Graph) (now : Nat) (u a ac : String) :
    ∃ tail : List GraphNode,
      (record_interaction g now u a ac).2.nodes =
        g.nodes ++ (⟨g.nextId, .interaction ⟨now, u, a, ac, tagTopics u ac⟩⟩ :: tail) ∧
      (∀ n ∈ tail, n.kind = .tool ∧ n.id = g.nextId + 1) ∧
      (record_interaction g now u a ac).2.nextId = g.nextId + 1 + tail.length ∧
      tail.length ≤ 1 := by
  simp only [record_interaction]
  by_cases htool : ac ∈ knownTools
  · simp only [if_pos htool]
    cases hfind : findToolNode
        { g with nextId := g.nextId + 1,
                 nodes := g.nodes ++
                   [⟨g.nextId, .interaction ⟨now, u, a, ac, tagTopics u ac⟩⟩] } ac with
    | some tid =>
        refine ⟨[], by simp, by simp, by simp, by simp⟩
    | none =>
        refine ⟨[⟨g.nextId + 1, .tool ac⟩], by simp, ?_, by simp, by simp⟩
        intro n hn
        simp at hn
        subst hn
        exact ⟨rfl, rfl⟩
  · simp only [if_neg htool]
    exact ⟨[], by simp, by simp, by simp, by simp⟩

/-- One `record_interaction` call preserves the id bound, appends exactly one
interaction id (the fresh id) and preserves no-duplicate node ids. -/
lemma record_interaction_step (g : Graph) (now : Nat) (u a ac : String)
    (hb : idsBound g) :
    idsBound (record_interaction g now u a ac).2 ∧
    interactionIds (record_interaction g now u a ac).2
      = interactionIds g ++ [g.nextId] ∧
    ((nodeIds g).Nodup → (nodeIds (record_interaction g now u a ac).2).Nodup) := by
  obtain ⟨tail, hnodes, htail, hnext, hlen⟩ := record_interaction_nodes g now u a ac
  refine ⟨?_, ?_, ?_⟩
  · intro m hm
    rw [hnodes] at hm
    rw [hnext]
    rcases List.mem_append.1 hm with h | h
    · have := hb m h
      omega
    · rcases List.mem_cons.1 h with h' | h'
      · subst h'
        simp only []
        omega
      · have hlen1 : 0 < tail.length := List.length_pos.2 (List.ne_nil_of_mem h')
        have := (htail m h').2
        omega
  · simp only [interactionIds, interactionNodes, hnodes, List.filter_append,
      List.filter_cons]
    have hk : (GraphNode.kind ⟨g.nextId,
        .interaction ⟨now, u, a, ac, tagTopics u ac⟩⟩ = NodeKind.interaction) := rfl
    have htail0 : tail.filter (fun n => n.kind = NodeKind.interaction) = [] := by
      rw [List.filter_eq_nil_iff]
      intro n hn
      rw [(htail n hn).1]
      simp
    rw [htail0]
    simp [hk]
  · intro hnd
    have hfresh : g.nextId ∉ nodeIds g := idsBound_notMem g hb _ le_rfl
    have hfresh1 : g.nextId + 1 ∉ nodeIds g := idsBound_notMem g hb _ (by omega)
    rcases tail with _ | ⟨t, rest⟩
    · rw [nodeIds, hnodes, List.map_append]
      refine List.Nodup.append hnd (by simp) ?_
      intro x hx hx2
      simp at hx2
      subst hx2
      exact hfresh hx
    · have hrest : rest = [] := by
        rcases rest with _ | ⟨r, rs⟩
        · rfl
        · simp at hlen
      subst hrest
      have htid : t.id = g.nextId + 1 := (htail t (by simp)).2
      rw [nodeIds, hnodes, List.map_append]
      refine List.Nodup.append hnd ?_ ?_
      · simp [htid]
      · intro x hx hx2
        simp [htid] at hx2
        rcases hx2 with h | h
        · subst h
          exact hfresh hx
        · subst h
          exact hfresh1 hx

/-- One request to the Interaction Recorder. -/
structure InteractionReq where
  now : Nat
  user_input : String
  agent_response : String
  action : String
deriving DecidableEq, Repr

/-- Folds a sequence of `record_interaction` calls over a graph. -/
def recordAll (g : Graph) : List InteractionReq → Graph
  | [] => g
  | r :: rs =>
      recordAll (record_interaction g r.now r.user_input r.agent_response r.action).2 rs

lemma recordAll_inv (rs : List InteractionReq) :
    ∀ g : Graph, idsBound g →
    idsBound (recordAll g rs) ∧
    (interactionIds (recordAll g rs)).length = (interactionIds g).length + rs.length ∧
    ((nodeIds g).Nodup → (nodeIds (recordAll g rs)).Nodup) := by
  induction rs with
  | nil =>
      intro g hb
      exact ⟨hb, by simp [recordAll], fun h => h⟩
  | cons r rs ih =>
      intro g hb
      obtain ⟨hb', hids, hnd⟩ :=
        record_interaction_step g r.now r.user_input r.agent_response r.action hb
      obtain ⟨ib, il, ind⟩ := ih _ hb'
      refine ⟨ib, ?_, fun h => ind (hnd h)⟩
      rw [recordAll, il, hids]
      simp
      omega

lemma interactionIds_nodup (g : Graph) (h : (nodeIds g).Nodup) :
    (interactionIds g).Nodup :=
  h.sublist ((List.filter_sublist _).map _)

/-- C7: after any sequence of N `record_interaction` calls starting from the
empty graph, the graph contains exactly N interaction nodes whose ids are
pairwise distinct, and no node identifier of the graph is ever reused (all
node ids are pairwise distinct over the whole lifetime). -/
theorem C7_interaction_ids_unique :
    ∀ rs : List InteractionReq,
    (interactionNodes (recordAll emptyGraph rs)).length = rs.length ∧
    (interactionIds (recordAll emptyGraph rs)).Nodup ∧
    (nodeIds (recordAll emptyGraph rs)).Nodup := by
  intro rs
  obtain ⟨hb, hlen, hnd⟩ :=
    recordAll_inv rs emptyGraph (by intro n hn; simp [emptyGraph] at hn)
  have hnodup : (nodeIds (recordAll emptyGraph rs)).Nodup :=
    hnd (by simp [nodeIds, emptyGraph])
  refine ⟨?_, interactionIds_nodup _ hnodup, hnodup⟩
  have h0 : (interactionIds emptyGraph).length = 0 := by
    simp [interactionIds, interactionNodes, emptyGraph]
  rw [interactionIds, List.length_map] at hlen
  rw [hlen, h0]
  omega

lemma record_feedback_invalid_iff (g : Graph) (now iid : Nat) (r : Int)
    (tags : List String) :
    (record_feedback g now iid r tags).1 = .error .invalidRating ↔
      r < 1 ∨ 5 < r := by
  by_cases hr : r < 1 ∨ 5 < r
  · simp [record_feedback, hr]
  · by_cases hi : hasInteraction g iid
    · simp [record_feedback, hr, hi]
    · have hif : hasInteraction g iid = false := by simpa using hi
      simp [record_feedback, hr, hif]

lemma ratingButtons_range :
    ∀ i : Fin 5, 1 ≤ ratingButtons.get ⟨i.1, i.2⟩ ∧ ratingButtons.get ⟨i.1, i.2⟩ ≤ 5 := by
  decide

/-- Invariant of the FeedbackButtons state: a selected rating, if any, is
in 1..5. -/
def fbRatingOk (s : FBState) : Prop :=
  ∀ r, s.selectedRating = some r → 1 ≤ r ∧ r ≤ 5

lemma fbStep_rating (s : FBState) (a : FBClick) (h : fbRatingOk s) :
    fbRatingOk (fbStep s a).1 ∧
    ∀ e, (fbStep s a).2 = some e → 1 ≤ e.rating ∧ e.rating ≤ 5 := by
  cases a with
  | clickRating i =>
      constructor
      · intro r hr
        simp [fbStep] at hr
        rw [← hr]
        exact ratingButtons_range i
      · intro e he
        simp [fbStep] at he
  | clickTag i =>
      constructor
      · intro r hr
        exact h r (by simpa [fbStep] using hr)
      · intro e he
        simp [fbStep] at he
  | clickSubmit =>
      cases hs : s.selectedRating with
      | none =>
          constructor
          · intro r hr
            simp [fbStep, hs] at hr
          · intro e he
            simp [fbStep, hs] at he
      | some r =>
          constructor
          · intro r' hr'
            simp [fbStep, hs] at hr'
          · intro e he
            simp [fbStep, hs] at he
            rw [← he]
            exact h r hs

lemma fbRun_ratings (acts : List FBClick) :
    ∀ s : FBState, fbRatingOk s →
    ∀ e ∈ fbRun s acts, 1 ≤ e.rating ∧ e.rating ≤ 5 := by
  induction acts with
  | nil =>
      intro s _ e he
      simp [fbRun] at he
  | cons a as ih =>
      intro s hs e he
      rw [fbRun] at he
      rcases List.mem_append.1 he with h | h
      · obtain ⟨_, hem⟩ := fbStep_rating s a hs
        cases ho : (fbStep s a).2 with
        | none =>
            rw [ho] at h
            simp at h
        | some x =>
            rw [ho] at h
            simp at h
            rw [h]
            exact hem x ho
      · exact ih (fbStep s a).1 (fbStep_rating s a hs).1 e h

/-- C8: every feedback event the FeedbackButtons UI can emit carries a rating
in {1,...,5} — the submit handler emits only when a rating is selected, and a
rating can only be selected by one of the five fixed buttons — so the emitted
rating never trips the `InvalidRating` branch of `record_feedback`. -/
theorem C8_ui_rating_always_valid :
    ∀ (acts : List FBClick) (e : FeedbackEmission),
    e ∈ fbRun initFB acts →
    1 ≤ e.rating ∧ e.rating ≤ 5 ∧
    ∀ (g : Graph) (now iid : Nat) (tags : List String),
      (record_feedback g now iid (e.rating : Int) tags).1 ≠
        .error .invalidRating := by
  intro acts e he
  obtain ⟨h1, h2⟩ :=
    fbRun_ratings acts initFB (by intro r hr; simp [initFB] at hr) e he
  refine ⟨h1, h2, ?_⟩
  intro g now iid tags hbad
  have := (record_feedback_invalid_iff g now iid (e.rating : Int) tags).1 hbad
  omega

/-- C8 witness: clicking the rating-5 button and submitting emits rating 5,
which is in range and cannot produce `InvalidRating`. -/
theorem C8_ui_rating_always_valid_witness :
    1 ≤ (FeedbackEmission.mk 5 "").rating ∧
    (FeedbackEmission.mk 5 "").rating ≤ 5 ∧
    (record_feedback emptyGraph 0 0 (((FeedbackEmission.mk 5 "").rating : Nat) : Int) []).1 ≠
      .error .invalidRating :=
  have h := C8_ui_rating_always_valid [.clickRating 4, .clickSubmit] ⟨5, ""⟩ (by decide)
  ⟨h.1, h.2.1, h.2.2 emptyGraph 0 0 []⟩

lemma appRun_feedback_count (evs : List ClientEvent) :
    ∀ (s : AppState) (a : String),
    (feedbackIds (appRun s evs)).count a ≤
      (receivedIds evs).count a +
        (if s.lastInteractionId = some a then 1 else 0) := by
  induction evs with
  | nil =>
      intro s a
      simp [appRun, feedbackIds, receivedIds]
  | cons e es ih =>
      intro s a
      cases e with
      | serverResponse m oid =>
          by_cases hm : m = ""
          · simpa [appRun, appStep, receivedIds, List.filterMap_cons, hm,
              feedbackIds] using ih s a
          · rcases oid with _ | i
            · simpa [appRun, appStep, receivedIds, List.filterMap_cons, hm,
                feedbackIds] using ih s a
            · by_cases hi : i = ""
              · simpa [appRun, appStep, receivedIds, List.filterMap_cons, hm, hi,
                  feedbackIds] using ih s a
              · have hstep : appStep s (.serverResponse m (some i)) = (⟨some i⟩, none) := by
                  simp [appStep, hm, hi]
                have hrun : appRun s (ClientEvent.serverResponse m (some i) :: es)
                    = appRun ⟨some i⟩ es := by
                  rw [appRun, hstep]
                  simp
                have hrecv : receivedIds (ClientEvent.serverResponse m (some i) :: es)
                    = i :: receivedIds es := by
                  simp [receivedIds, List.filterMap_cons, hm, hi]
                rw [hrun, hrecv, List.count_cons]
                have H := ih ⟨some i⟩ a
                rcases eq_or_ne a i with hai | hai
                · subst hai
                  simp at H ⊢
                  omega
                · simp [hai, Ne.symm hai] at H ⊢
                  split_ifs <;> omega
      | userSend m =>
          by_cases hm : trimStr m = ""
          · simpa [appRun, appStep, receivedIds, List.filterMap_cons, hm,
              feedbackIds] using ih s a
          · have hstep : appStep s (.userSend m) = (⟨none⟩, some (.chatMessage m)) := by
              simp [appStep, hm]
            have hrun : appRun s (ClientEvent.userSend m :: es)
                = Emission.chatMessage m :: appRun ⟨none⟩ es := by
              rw [appRun, hstep]
              simp
            have hrecv : receivedIds (ClientEvent.userSend m :: es) = receivedIds es := by
              simp [receivedIds, List.filterMap_cons]
            have hfid : feedbackIds (Emission.chatMessage m :: appRun ⟨none⟩ es)
                = feedbackIds (appRun ⟨none⟩ es) := by
              simp [feedbackIds, List.filterMap_cons]
            rw [hrun, hrecv, hfid]
            have H := ih ⟨none⟩ a
            simp at H
            split_ifs <;> omega
      | userFeedback r t =>
          cases hs : s.lastInteractionId with
          | none =>
              simpa [appRun, appStep, hs, receivedIds, List.filterMap_cons,
                feedbackIds] using ih s a
          | some iid =>
              have hstep : appStep s (.userFeedback r t)
                  = (⟨none⟩, some (.feedbackEvent iid r t)) := by
                simp [appStep, hs]
              have hrun : appRun s (ClientEvent.userFeedback r t :: es)
                  = Emission.feedbackEvent iid r t :: appRun ⟨none⟩ es := by
                rw [appRun, hstep]
                simp
              have hrecv : receivedIds (ClientEvent.userFeedback r t :: es)
                  = receivedIds es := by
                simp [receivedIds, List.filterMap_cons]
              have hfid : feedbackIds (Emission.feedbackEvent iid r t :: appRun ⟨none⟩ es)
                  = iid :: feedbackIds (appRun ⟨none⟩ es) := by
                simp [feedbackIds, List.filterMap_cons]
              rw [hrun, hrecv, hfid, List.count_cons]
              have H := ih ⟨none⟩ a
              simp at H
              rcases eq_or_ne a iid with hai | hai
              · subst hai
                simp [hs]
                omega
              · simp [hai, hs, Ne.symm hai]
                exact H

/-- C9: over every client event sequence, the number of `feedback` events
referencing an interaction id never exceeds the number of server responses
that delivered that id — so each id the server delivers once receives at most
one feedback event; moreover `sendFeedback` emits nothing when
`lastInteractionId` is null, resets it to null after emitting, and sending a
chat message clears it. -/
theorem C9_at_most_one_feedback_per_id :
    ∀ (evs : List ClientEvent) (a : String),
    (feedbackIds (appRun initApp evs)).count a ≤ (receivedIds evs).count a ∧
    ((receivedIds evs).count a ≤ 1 →
      (feedbackIds (appRun initApp evs)).count a ≤ 1) ∧
    (∀ (s : AppState) (r : Nat) (t : String), s.lastInteractionId = none →
      appStep s (.userFeedback r t) = (s, none)) ∧
    (∀ (s : AppState) (r : Nat) (t : String) (em : Emission),
      (appStep s (.userFeedback r t)).2 = some em →
      (appStep s (.userFeedback r t)).1.lastInteractionId = none) ∧
    (∀ (s : AppState) (m : String), ¬ trimStr m = "" →
      (appStep s (.userSend m)).1.lastInteractionId = none) := by
  intro evs a
  have H := appRun_feedback_count evs initApp a
  simp [initApp] at H
  refine ⟨H, fun h => le_trans H h, ?_, ?_, ?_⟩
  · intro s r t hs
    simp [appStep, hs]
  · intro s r t em hem
    cases hs : s.lastInteractionId with
    | none => simp [appStep, hs] at hem
    | some i => simp [appStep, hs]
  · intro s m hm
    simp [appStep, hm]

/-- C9 witness: one delivered id "A" receives at most one feedback event, and
the three `sendFeedback`/`sendMessage` mechanics hold at concrete states. -/
theorem C9_at_most_one_feedback_per_id_witness :
    (feedbackIds (appRun initApp
        [.serverResponse "hi" (some "A"), .userFeedback 5 ""])).count "A" ≤
      (receivedIds [ClientEvent.serverResponse "hi" (some "A"),
        .userFeedback 5 ""]).count "A" ∧
    (feedbackIds (appRun initApp
        [.serverResponse "hi" (some "A"), .userFeedback 5 ""])).count "A" ≤ 1 ∧
    appStep initApp (.userFeedback 3 "x") = (initApp, none) ∧
    (appStep ⟨some "A"⟩ (.userFeedback 3 "x")).1.lastInteractionId = none ∧
    (appStep initApp (.userSend "hello")).1.lastInteractionId = none :=
  have h := C9_at_most_one_feedback_per_id
    [.serverResponse "hi" (some "A"), .userFeedback 5 ""] "A"
  ⟨h.1, h.2.1 (by decide), h.2.2.1 initApp 3 "x" rfl,
   h.2.2.2.1 ⟨some "A"⟩ 3 "x" (.feedbackEvent "A" 3 "x") rfl,
   h.2.2.2.2 initApp "hello" (by decide)⟩

lemma appRun_chat_trim (evs : List ClientEvent) :
    ∀ (s : AppState) (m : String),
    Emission.chatMessage m ∈ appRun s evs → ¬ trimStr m = "" := by
  induction evs with
  | nil =>
      intro s m h
      simp [appRun] at h
  | cons e es ih =>
      intro s m h
      rw [appRun] at h
      rcases List.mem_append.1 h with h1 | h1
      · cases e with
        | serverResponse m2 oid =>
            have h2 : (appStep s (.serverResponse m2 oid)).2 = none := by
              rcases oid with _ | i <;>
                · simp only [appStep]
                  split_ifs <;> rfl
            rw [h2] at h1
            simp at h1
        | userSend m2 =>
            by_cases hm : trimStr m2 = ""
            · rw [(by simp [appStep, hm] :
                  (appStep s (.userSend m2)).2 = none)] at h1
              simp at h1
            · rw [(by simp [appStep, hm] :
                  (appStep s (.userSend m2)).2 = some (.chatMessage m2))] at h1
              simp at h1
              rw [h1]
              exact hm
        | userFeedback r t =>
            cases hs : s.lastInteractionId with
            | none =>
                rw [(by simp [appStep, hs] :
                    (appStep s (.userFeedback r t)).2 = none)] at h1
                simp at h1
            | some i =>
                rw [(by simp [appStep, hs] :
                    (appStep s (.userFeedback r t)).2 =
                      some (.feedbackEvent i r t))] at h1
                simp at h1
      · exact ih _ m h1

/-- C10: the client never emits a `chat_message` whose message trims to the
empty string — `sendMessage` returns early on a whitespace-only message, and
ChatInput's submit handler forwards a message only when its trimmed form is
nonempty. -/
theorem C10_no_blank_chat_messages :
    (∀ (evs : List ClientEvent) (m : String),
      Emission.chatMessage m ∈ appRun initApp evs → ¬ trimStr m = "") ∧
    (∀ (d : Bool) (tool msg out : String),
      chatInputSubmit d tool msg = some out → ¬ trimStr out = "") := by
  constructor
  · intro evs m h
    exact appRun_chat_trim evs initApp m h
  · intro d tool msg out h
    simp only [chatInputSubmit] at h
    by_cases hd : d = true
    · simp [hd] at h
    · rw [if_neg hd] at h
      simp at h
      obtain ⟨h1, h2⟩ := h
      rw [← h2]
      exact h1

/-- C10 witness: submitting "hello" through ChatInput forwards it, and the
resulting `chat_message` emission has a nonempty trimmed message. -/
theorem C10_no_blank_chat_messages_witness :
    ¬ trimStr "hello" = "" ∧ ¬ trimStr "/tool mortgage_calculator principal=1" = "" :=
  ⟨C10_no_blank_chat_messages.1 [.userSend "hello"] "hello" (by decide),
   C10_no_blank_chat_messages.2 false "mortgage_calculator" "principal=1"
     "/tool mortgage_calculator principal=1" rfl⟩

/-- C3 counterexample: the client does not deliver the tags as an ordered
list — `handleSubmit` joins the selected tags with ", " into the single
free-text `text` field of the feedback event. Two distinct ordered tag lists
("a, b" alone versus "a" then "b") produce identical emissions, so the
delivered argument cannot be the ordered list; concretely, selecting
"Too verbose" and "Helpful" delivers the one string "Too verbose, Helpful". -/
theorem C3_tags_not_delivered_as_list :
    (fbStep ⟨some 5, ["a, b"]⟩ .clickSubmit).2 =
      (fbStep ⟨some 5, ["a", "b"]⟩ .clickSubmit).2 ∧
    (["a, b"] : List String) ≠ ["a", "b"] ∧
    (fbStep ⟨some 5, ["Too verbose", "Helpful"]⟩ .clickSubmit).2 =
      some ⟨5, "Too verbose, Helpful"⟩ :=
  ⟨rfl, by decide, rfl⟩

/-- C3 amended: for every feedback submission the client delivers the
selected tags in selection order as a single comma-joined free-text string
(possibly empty), and in the spec-modelled reward each individually
recognized tag still contributes its own additive delta. -/
theorem C3_tags_joined_in_order :
    ∀ (s : FBState) (r : Nat),
    s.selectedRating = some r →
    (fbStep s .clickSubmit).2 =
      some ⟨r, String.intercalate ", " s.selectedTags⟩ ∧
    (∀ ts t, tag_adjustment (ts ++ [t]) = tag_adjustment ts + tagDelta t) ∧
    tag_adjustment [] = 0 := by
  intro s r hr
  refine ⟨by simp [fbStep, hr], ?_, by simp [tag_adjustment]⟩
  intro ts t
  simp [tag_adjustment]

/-- C3 witness: a concrete submission with two selected tags delivers their
comma-join, and the adjustment of appending "Helpful" adds its delta. -/
theorem C3_tags_joined_in_order_witness :
    (fbStep ⟨some 5, ["Too verbose", "Helpful"]⟩ .clickSubmit).2 =
      some ⟨5, String.intercalate ", " ["Too verbose", "Helpful"]⟩ ∧
    tag_adjustment (["Too verbose"] ++ ["Helpful"]) =
      tag_adjustment ["Too verbose"] + tagDelta "Helpful" :=
  have h := C3_tags_joined_in_order ⟨some 5, ["Too verbose", "Helpful"]⟩ 5 rfl
  ⟨h.1, h.2.1 ["Too verbose"] "Helpful"⟩

end LoanRL
